import Mathlib

/-!
Shallow embedding of the temporal-navigation core of obsidian-daily-orbit:
the waypoint graph and its traversal engine (src/timewalkService.ts, class
Timewalk and the waypoint implementations), the index-rebuild service
(class TimewalkService, including the adjacency helpers of the orbit
variant), and the gap-collapsing timeline builder
(src/dailyNoteNavbar/globalModeBuilder.ts).

Modelling conventions:
* A JavaScript `Date` is modelled as `Option Int`: `some t` is a valid date
  whose `getTime()` is `t` milliseconds since the epoch, `none` is an
  invalid date (`getTime()` is `NaN`).
* The host environment's local timezone is taken to be UTC, so
  `getFullYear/getMonth/getDate` triples agree iff the epoch-millisecond
  values fall in the same UTC calendar day.
* `Array.prototype.sort` is modelled as a stable insertion sort; the
  ECMAScript spec mandates a stable sort and maps a NaN comparator result
  to plus-zero, which pins the result whenever the comparator is consistent.
* The two regular expressions used on file paths are modelled by a
  character-level matcher that scans candidate start positions left to
  right; every quantifier in those patterns is followed by a disjoint
  character class (or is of fixed width), so greedy matching without
  backtracking is exact.
-/

/-- Direction for traversal (`type Direction = 'past' | 'future'`). -/
inductive Direction where
  | past
  | future
deriving DecidableEq

/-- Filter type for node selection (`type Filter = 'all' | 'leaves' | 'containers'`);
namespaced to avoid clashing with Mathlib's `Filter`. -/
inductive Timewalk.Filter where
  | all
  | leaves
  | containers
deriving DecidableEq

/-- A waypoint: `leaf` covers `ObsidianFileWaypoint`/`StringWaypoint`
(identifier plus an explicit `Date`), `group` is `GroupWaypoint`
(identifier, optional explicit group time, ordered children).
For an `ObsidianFileWaypoint` the identifier is the file's path and the
file resource itself is identified with that path. -/
inductive Waypoint where
  | leaf (id : String) (time : Option Int)
  | group (id : String) (gtime : Option (Option Int)) (children : List Waypoint)

mutual

def Waypoint.decEq : (a b : Waypoint) → Decidable (a = b)
  | .leaf i t, .leaf i' t' =>
    if h1 : i = i' then
      if h2 : t = t' then isTrue (by rw [h1, h2])
      else isFalse (fun h => by cases h; exact h2 rfl)
    else isFalse (fun h => by cases h; exact h1 rfl)
  | .leaf _ _, .group _ _ _ => isFalse (fun h => by cases h)
  | .group _ _ _, .leaf _ _ => isFalse (fun h => by cases h)
  | .group i g cs, .group i' g' cs' =>
    if h1 : i = i' then
      if h2 : g = g' then
        match Waypoint.decEqList cs cs' with
        | isTrue h3 => isTrue (by rw [h1, h2, h3])
        | isFalse h3 => isFalse (fun h => by cases h; exact h3 rfl)
      else isFalse (fun h => by cases h; exact h2 rfl)
    else isFalse (fun h => by cases h; exact h1 rfl)

def Waypoint.decEqList : (a b : List Waypoint) → Decidable (a = b)
  | [], [] => isTrue rfl
  | [], _ :: _ => isFalse (fun h => by cases h)
  | _ :: _, [] => isFalse (fun h => by cases h)
  | x :: xs, y :: ys =>
    match Waypoint.decEq x y, Waypoint.decEqList xs ys with
    | isTrue h1, isTrue h2 => isTrue (by rw [h1, h2])
    | isFalse h1, _ => isFalse (fun h => by cases h; exact h1 rfl)
    | _, isFalse h2 => isFalse (fun h => by cases h; exact h2 rfl)

end

instance : DecidableEq Waypoint := Waypoint.decEq

/-- `identifier()` of a waypoint. -/
def Waypoint.identifier : Waypoint → String
  | .leaf id _ => id
  | .group id _ _ => id

/-- `isContainer()` of a waypoint. -/
def Waypoint.isContainer : Waypoint → Bool
  | .leaf _ _ => false
  | .group _ _ _ => true

/-- `children()` of a waypoint. -/
def Waypoint.children : Waypoint → List Waypoint
  | .leaf _ _ => []
  | .group _ _ cs => cs

mutual

/-- `time()` of a waypoint.  A group with an explicit `groupTime` returns it
(a `Date` object is truthy even when invalid); otherwise it returns the
minimum of the children's valid times, or the zero epoch when there is no
valid child time (`GroupWaypoint.time`). -/
def Waypoint.time : Waypoint → Option Int
  | .leaf _ t => t
  | .group _ (some gt) _ => gt
  | .group _ none cs =>
    match Waypoint.childTimes cs with
    | [] => some 0
    | t :: rest => some (rest.foldl min t)

/-- `childNodes.map(c => c.time().getTime()).filter(t => !isNaN(t))`. -/
def Waypoint.childTimes : List Waypoint → List Int
  | [] => []
  | c :: cs =>
    match Waypoint.time c with
    | some t => t :: Waypoint.childTimes cs
    | none => Waypoint.childTimes cs

end

namespace Timewalk

mutual

/-- `Timewalk.collectAllChildren`: pre-order flattening, the node itself
followed by the recursive flattening of each child (containers only). -/
def collectAllChildren : Waypoint → List Waypoint
  | .leaf id t => [.leaf id t]
  | .group id g cs => .group id g cs :: collectList cs

def collectList : List Waypoint → List Waypoint
  | [] => []
  | c :: cs => collectAllChildren c ++ collectList cs

end

/-- `Timewalk.isSameDay`: same local year/month/day; with local time = UTC
this is equality of the floored epoch-day.  A `NaN` time is on no day. -/
def dayOf (t : Int) : Int := t / 86400000

/-- Same calendar day for two possibly-invalid dates (`NaN` compares false). -/
def isSameDayO : Option Int → Option Int → Bool
  | some a, some b => dayOf a == dayOf b
  | _, _ => false

/-- Millisecond-exact equality of two possibly-invalid dates
(`NaN === NaN` is false in JavaScript). -/
def msEq : Option Int → Option Int → Bool
  | some a, some b => a == b
  | _, _ => false

/-- The comparator passed to `filtered.sort` in `traverse`:
`past` is `timeB - timeA`, `future` is `timeA - timeB`; a NaN result is
treated as zero by the ECMAScript sort algorithm. -/
def jsCmp (dir : Direction) (a b : Waypoint) : Int :=
  match a.time, b.time with
  | some x, some y =>
    match dir with
    | .past => y - x
    | .future => x - y
  | _, _ => 0

/-- Stable insertion of `a` into `l`: `a` is placed before the first
element it need not follow (comparator result at most zero). -/
def insertLe (le : Waypoint → Waypoint → Bool) (a : Waypoint) : List Waypoint → List Waypoint
  | [] => [a]
  | b :: bs => if le a b then a :: b :: bs else b :: insertLe le a bs

/-- Stable sort modelling `Array.prototype.sort`. -/
def sortByLe (le : Waypoint → Waypoint → Bool) : List Waypoint → List Waypoint
  | [] => []
  | x :: xs => insertLe le x (sortByLe le xs)

/-- The filter predicate inside `traverse`: drop kinds excluded by
`filter`; unless `includeNonCalendar`, drop non-containers whose time is
missing, zero-epoch, or invalid. -/
def passesFilter (filter : Filter) (inc : Bool) (n : Waypoint) : Bool :=
  (match filter with
   | .leaves => !n.isContainer
   | .containers => n.isContainer
   | .all => true) &&
  (inc || n.isContainer ||
    (match n.time with
     | some t => !(t == 0)
     | none => false))

/-- Boolean form of "the comparator does not require `a` after `b`". -/
def sortLe (dir : Direction) (a b : Waypoint) : Bool := jsCmp dir a b ≤ 0

/-- `Timewalk.traverse` with the visited waypoints returned in callback
order: flatten, filter, sort by time in the requested direction. -/
def traverse (root : Waypoint) (dir : Direction) (filter : Filter) (inc : Bool) : List Waypoint :=
  sortByLe (sortLe dir) ((collectAllChildren root).filter (passesFilter filter inc))

/-- The scan loop of `Timewalk.navigate`: first non-container node whose
time is millisecond-equal to the target. -/
def navigateGo (target : Option Int) : List Waypoint → Option Waypoint
  | [] => none
  | n :: rest =>
    if n.isContainer then navigateGo target rest
    else if msEq n.time target then some n
    else navigateGo target rest

/-- `Timewalk.navigate`. -/
def navigate (root : Waypoint) (target : Option Int) : Option Waypoint :=
  navigateGo target (collectAllChildren root)

/-- `Timewalk.find`: all non-container nodes on the same calendar day as
the target. -/
def find (root : Waypoint) (target : Option Int) : List Waypoint :=
  (collectAllChildren root).filter (fun n => !n.isContainer && isSameDayO n.time target)

end Timewalk

/-! Path-pattern model.  The index builder filters with
`/(\d{4})\/(\d{2})\.\s*\w+\/(\d{2})\s+\w+\.md$/` and extracts captures with
`/(\d{4})\/(\d{2})\.\s*\w+\/(\d{2})\s+\w+/` (leftmost match). -/

/-- JavaScript `\w` (no unicode flag): `[A-Za-z0-9_]`. -/
def isWordChar (c : Char) : Bool :=
  ('a' ≤ c && c ≤ 'z') || ('A' ≤ c && c ≤ 'Z') || ('0' ≤ c && c ≤ '9') || c = '_'

/-- JavaScript `\s`: ASCII whitespace plus the Unicode space characters and
the BOM. -/
def isJsSpace (c : Char) : Bool :=
  c = ' ' || c = '\t' || c = '\n' || c = '\r' ||
  c.val = 0x0b || c.val = 0x0c || c.val = 0xa0 || c.val = 0x1680 ||
  (0x2000 ≤ c.val && c.val ≤ 0x200a) ||
  c.val = 0x2028 || c.val = 0x2029 || c.val = 0x202f || c.val = 0x205f ||
  c.val = 0x3000 || c.val = 0xfeff

/-- Match exactly `n` digits and return their decimal value (the effect of
`parseInt` on a `\d{n}` capture) with the rest of the input. -/
def takeDigits (acc : Nat) : Nat → List Char → Option (Nat × List Char)
  | 0, s => some (acc, s)
  | _ + 1, [] => none
  | n + 1, c :: s =>
    if c.isDigit then takeDigits (acc * 10 + (c.toNat - '0'.toNat)) n s else none

/-- Match one literal character. -/
def expectChar (ch : Char) : List Char → Option (List Char)
  | [] => none
  | c :: s => if c = ch then some s else none

/-- Greedy `\w+`: at least one word character, consumed maximally. -/
def takeWord1 : List Char → Option (List Char)
  | [] => none
  | c :: rest => if isWordChar c then some (rest.dropWhile isWordChar) else none

/-- Greedy `\s+`: at least one whitespace character, consumed maximally. -/
def takeSpaces1 : List Char → Option (List Char)
  | [] => none
  | c :: rest => if isJsSpace c then some (rest.dropWhile isJsSpace) else none

/-- Attempt the core pattern `(\d{4})\/(\d{2})\.\s*\w+\/(\d{2})\s+\w+` at
one start position; on success return the numeric captures and the unread
remainder.  Each greedy quantifier here is followed by a character from a
disjoint class, so maximal munch is exactly the backtracking semantics. -/
def coreAt (s : List Char) : Option (Nat × Nat × Nat × List Char) := do
  let (y, s) ← takeDigits 0 4 s
  let s ← expectChar '/' s
  let (m, s) ← takeDigits 0 2 s
  let s ← expectChar '.' s
  let s := s.dropWhile isJsSpace
  let s ← takeWord1 s
  let s ← expectChar '/' s
  let (d, s) ← takeDigits 0 2 s
  let s ← takeSpaces1 s
  let s ← takeWord1 s
  some (y, m, d, s)

/-- Leftmost match of the capture pattern (`String.prototype.match`
without the `g` flag): captures of the first position where the core
pattern matches. -/
def searchCore : List Char → Option (Nat × Nat × Nat)
  | [] => none
  | c :: rest =>
    match coreAt (c :: rest) with
    | some (y, m, d, _) => some (y, m, d)
    | none => searchCore rest

/-- One position of the filter pattern: the core pattern followed by
`\.md$` (end of input). -/
def testAt (s : List Char) : Bool :=
  match coreAt s with
  | some (_, _, _, rest) => rest = ['.', 'm', 'd']
  | none => false

/-- `dailyNotePattern.test(path)`: does the filter pattern match at some
position? -/
def testDailyNoteAux : List Char → Bool
  | [] => false
  | c :: rest => testAt (c :: rest) || testDailyNoteAux rest

/-- The daily-note filter on a path string. -/
def testDailyNote (p : String) : Bool := testDailyNoteAux p.toList

/-- Leftmost core-pattern captures of a path string. -/
def pathCaptures (p : String) : Option (Nat × Nat × Nat) := searchCore p.toList

/-! Calendar model: proleptic-Gregorian day numbers relative to
1970-01-01, after Howard Hinnant's `days_from_civil` (which is also the
arithmetic behind the ECMAScript `MakeDay`). -/

/-- Day number (days since 1970-01-01 UTC) of the civil date `y-m-d`,
for `1 ≤ m ≤ 12`; linear continuation in `d`.  `Int` division here is
floor division (the divisors are positive). -/
def daysFromCivil (y m d : Int) : Int :=
  let y' := y - (if m ≤ 2 then 1 else 0)
  let era := y' / 400
  let yoe := y' - era * 400
  let doy := (153 * (m + (if m > 2 then -3 else 9)) + 2) / 5 + (d - 1)
  era * 146097 + (yoe * 365 + yoe / 4 - yoe / 100 + doy) - 719468

/-- ECMAScript `MakeDay(y, monthIndex, d)`: out-of-range month indexes
roll the year, out-of-range days roll within `daysFromCivil`'s linear
continuation. -/
def makeDayJS (y monthIndex d : Int) : Int :=
  daysFromCivil (y + monthIndex / 12) (monthIndex % 12 + 1) d

/-- `Date.UTC` year rewriting: years 0–99 are interpreted as 1900–1999. -/
def jsUTCYear (y : Int) : Int :=
  if 0 ≤ y && y ≤ 99 then 1900 + y else y

/-- `Date.UTC(y, m0, d)` at midnight, in epoch milliseconds. -/
def dateUTC (y m0 d : Int) : Int :=
  makeDayJS (jsUTCYear y) m0 d * 86400000

/-- Gregorian leap year. -/
def isLeapYear (y : Int) : Bool :=
  (y % 4 == 0 && y % 100 != 0) || y % 400 == 0

/-- Days in a month of the Gregorian calendar (used by moment's
overflow validation). -/
def daysInMonth (y m : Int) : Int :=
  if m == 2 then (if isLeapYear y then 29 else 28)
  else if m == 4 || m == 6 || m == 9 || m == 11 then 30
  else 31

/-- Validity of `moment(dateStr, "YYYY-MM-DD")` for numeric fields `y-m-d`:
moment flags an overflowing month or day as invalid instead of rolling
over. -/
def momentValidYMD (y m d : Int) : Bool :=
  1 ≤ m && m ≤ 12 && 1 ≤ d && d ≤ daysInMonth y m

/-- The path-parsing fallback branch of `getDailyNoteDate`: re-derive the
date from the path captures via `moment` (with local time = UTC, a valid
parse is midnight UTC of the captured civil date; no year rewriting, no
rollover). -/
def fallbackDate (p : String) : Option Int :=
  match pathCaptures p with
  | some (y, m, d) =>
    if momentValidYMD y m d then some (daysFromCivil y m d * 86400000) else none
  | none => none

/-! The `TimewalkService` layer. -/

/-- State owned by `TimewalkService`: the current graph (the root waypoint
wrapped by `Timewalk`) and the `waypointMap` lookup cache, an
insertion-ordered map from file path to the cached waypoint's date. -/
structure ServiceState where
  timewalk : Waypoint
  waypointMap : List (String × Int)
deriving DecidableEq

namespace TimewalkService

/-- `Map.prototype.set`: overwrite in place or append. -/
def mapSet (m : List (String × Int)) (k : String) (v : Int) : List (String × Int) :=
  match m with
  | [] => [(k, v)]
  | (k', v') :: rest => if k' = k then (k, v) :: rest else (k', v') :: mapSet rest k v

/-- `Map.prototype.get`. -/
def mapGet (m : List (String × Int)) (k : String) : Option Int :=
  match m with
  | [] => none
  | (k', v') :: rest => if k' = k then some v' else mapGet rest k

/-- One waypoint-construction step of the rebuild loop: on a core-pattern
match, append a leaf dated `Date.UTC(year, month - 1, day)` to the root's
children and cache it; otherwise leave the accumulator unchanged. -/
def rebuildStep (acc : List Waypoint × List (String × Int)) (p : String) :
    List Waypoint × List (String × Int) :=
  match pathCaptures p with
  | some (y, m, d) =>
    let t := dateUTC (y : Int) ((m : Int) - 1) (d : Int)
    (acc.1 ++ [Waypoint.leaf p (some t)], mapSet acc.2 p t)
  | none => acc

/-- `TimewalkService.rebuild` with the external listing call made
explicit: the cache is cleared, then `vault.getMarkdownFiles()` either
fails (the exception propagates, the old graph stays) or yields the path
listing, which is filtered by the daily-note pattern and folded into a
fresh root that replaces the graph.  The returned `Option ε` is the
propagated exception. -/
def rebuild {ε : Type} (st : ServiceState) (listing : Except ε (List String)) :
    ServiceState × Option ε :=
  let cleared : List (String × Int) := []
  match listing with
  | .error e => ({ st with waypointMap := cleared }, some e)
  | .ok files =>
    let matching := files.filter testDailyNote
    let built := matching.foldl rebuildStep ([], cleared)
    ({ timewalk := Waypoint.group "daily-notes" none built.1, waypointMap := built.2 }, none)

/-- `TimewalkService.getDailyNoteDate`: O(1) cache hit returning the cached
waypoint's date, else the path-parsing fallback. -/
def getDailyNoteDate (st : ServiceState) (p : String) : Option Int :=
  match mapGet st.waypointMap p with
  | some t => some t
  | none => fallbackDate p

/-- `TimewalkService.findDailyNote`: first `Timewalk.find` result's file. -/
def findDailyNote (st : ServiceState) (target : Option Int) : Option String :=
  match Timewalk.find st.timewalk target with
  | [] => none
  | w :: _ => some w.identifier

/-- `TimewalkService.getSortedWaypoints`: chronological leaf sequence plus
the index of the first leaf on the same calendar day as `currentDate`
(`findIndex` returns -1, modelled as `none`, when nothing matches). -/
def getSortedWaypoints (st : ServiceState) (cur : Option Int) :
    List Waypoint × Option Nat :=
  let wps := Timewalk.traverse st.timewalk .future .leaves false
  (wps, wps.findIdx? (fun w => Timewalk.isSameDayO w.time cur))

/-- `TimewalkService.getPreviousDailyNote`: the file of the leaf before the
matched index, or null at the boundary / when unmatched. -/
def getPreviousDailyNote (st : ServiceState) (cur : Option Int) : Option String :=
  let (wps, idx) := getSortedWaypoints st cur
  match idx with
  | some i =>
    if 0 < i then
      match wps[i - 1]? with
      | some w => some w.identifier
      | none => none
    else none
  | none => none

/-- `TimewalkService.getNextDailyNote`: the file of the leaf after the
matched index, or null at the boundary / when unmatched. -/
def getNextDailyNote (st : ServiceState) (cur : Option Int) : Option String :=
  let (wps, idx) := getSortedWaypoints st cur
  match idx with
  | some i =>
    if i + 1 < wps.length then
      match wps[i + 1]? with
      | some w => some w.identifier
      | none => none
    else none
  | none => none

end TimewalkService

/-! The gap-collapsing timeline builder
(src/dailyNoteNavbar/globalModeBuilder.ts). -/

/-- `GlobalNavItem`: tagged note/gap entry.  A note carries the waypoint's
date (a moment, possibly invalid), its file (identified by path) and the
active/current flags; a gap carries its start date and the count of
missing days. -/
inductive GlobalNavItem where
  | note (date : Option Int) (file : String) (isActive : Bool) (isCurrent : Bool)
  | gap (date : Option Int) (gapCount : Int)
deriving DecidableEq

/-- Equality of `format('YYYY-MM-DD')` strings of two moments under a UTC
local time: equal calendar days, or both invalid (both format to the
string of an invalid date). -/
def fmtEq : Option Int → Option Int → Bool
  | some a, some b => Timewalk.dayOf a == Timewalk.dayOf b
  | none, none => true
  | _, _ => false

/-- Day difference as computed by moment diff with unit days: the
millisecond difference divided by one day, truncated toward zero; an
invalid operand yields NaN, propagated as `none`. -/
def momentDiffDays : Option Int → Option Int → Option Int
  | some tb, some ta => some ((tb - ta).tdiv 86400000)
  | _, _ => none

/-- The waypoint loop of `buildGlobalTimeline`: emit a note per waypoint
and, between consecutive waypoints with more than zero whole days missing,
one gap item starting the day after the earlier waypoint. -/
def buildItems (active current : Option Int) : List Waypoint → List GlobalNavItem
  | [] => []
  | w :: rest =>
    let d := w.time
    let noteIt := GlobalNavItem.note d w.identifier (fmtEq d active) (fmtEq d current)
    let gapIts : List GlobalNavItem :=
      match rest with
      | [] => []
      | w' :: _ =>
        match d, w'.time with
        | some t, some t' =>
          let daysBetween := (t' - t).tdiv 86400000 - 1
          if 0 < daysBetween then [GlobalNavItem.gap (some (t + 86400000)) daysBetween]
          else []
        | _, _ => []
    noteIt :: (gapIts ++ buildItems active current rest)

/-- `buildGlobalTimeline(timewalkService, activeDate, currentDate)`. -/
def buildGlobalTimeline (st : ServiceState) (active current : Option Int) :
    List GlobalNavItem :=
  let wps := Timewalk.traverse st.timewalk .future .leaves false
  if wps.isEmpty then [] else buildItems active current wps

/-- Expansion of one timeline item into the calendar days it stands for:
one day for a note, `gapCount` consecutive days for a gap (an invalid date
stands for no day). -/
def expandItem : GlobalNavItem → List Int
  | .note (some t) _ _ _ => [Timewalk.dayOf t]
  | .note none _ _ _ => []
  | .gap (some t) cnt => (List.range cnt.toNat).map (fun (i : Nat) => Timewalk.dayOf t + (i : Int))
  | .gap none _ => []

/-- Concatenated day expansion of a timeline. -/
def expandDays (l : List GlobalNavItem) : List Int :=
  (l.map expandItem).flatten

/-- The inclusive run of calendar days from `a` through `b`. -/
def dayRange (a b : Int) : List Int :=
  (List.range (b - a + 1).toNat).map (fun (i : Nat) => a + (i : Int))

/-! Specification-side relations and concrete instances used by the
theorems below. -/

/-- Non-decreasing (`future`) / non-increasing (`past`) time order between
two waypoints, stated on the valid times they carry. -/
def dirLE (dir : Direction) (a b : Waypoint) : Prop :=
  ∀ x y, a.time = some x → b.time = some y →
    match dir with
    | .future => x ≤ y
    | .past => y ≤ x

/-- Strictly increasing time order on valid times. -/
def timeSLT (a b : Waypoint) : Prop :=
  ∀ x y, a.time = some x → b.time = some y → x < y

/-- A waypoint whose time is a valid UTC midnight. -/
def isMidnight (w : Waypoint) : Bool :=
  match w.time with
  | some t => t % 86400000 == 0
  | none => false

/-- The leaf the rebuild loop constructs for a path (when the capture
pattern matches): dated `Date.UTC(year, month - 1, day)`. -/
def mkDailyLeaf (p : String) : Option Waypoint :=
  (pathCaptures p).map
    (fun ymd => Waypoint.leaf p (some (dateUTC (ymd.1 : Int) ((ymd.2.1 : Int) - 1) (ymd.2.2 : Int))))

/-- An initial service state: empty root group, empty cache. -/
def emptyState : ServiceState := ⟨Waypoint.group "daily-notes" none [], []⟩

/-- Listing with daily notes for 2025-01-01, 2025-01-02 and 2025-01-05. -/
def janListing : List String :=
  ["2025/01. Jan/01 Wed.md", "2025/01. Jan/02 Thu.md", "2025/01. Jan/05 Sun.md"]

/-- The service state built from `janListing`. -/
def stJan : ServiceState :=
  (TimewalkService.rebuild (ε := Unit) emptyState (.ok janListing)).1

/-- A pattern-matching path whose captured month 99 overflows. -/
def pOverflow : String := "2025/99. Mar/07 Fri.md"

/-- The service state built from the single overflow path. -/
def stOverflow : ServiceState :=
  (TimewalkService.rebuild (ε := Unit) emptyState (.ok [pOverflow])).1

/-- A pattern-matching path whose captured year 0099 is in the range that
`Date.UTC` rewrites to 1900–1999. -/
def pShift : String := "0099/01. Jan/01 Aa.md"

/-- The service state built from the single year-0099 path. -/
def stShift : ServiceState :=
  (TimewalkService.rebuild (ε := Unit) emptyState (.ok [pShift])).1

/-- Two leaves on the same calendar day, one millisecond apart. -/
def stDup : ServiceState :=
  ⟨Waypoint.group "daily-notes" none
    [Waypoint.leaf "a" (some 86400000), Waypoint.leaf "b" (some 86400001)], []⟩

/-- A graph with a single zero-epoch leaf. -/
def gZeroLeaf : Waypoint := Waypoint.group "r" none [Waypoint.leaf "z" (some 0)]

/-- Two leaves at non-midnight times: noon of epoch day 0 and 06:00 of
epoch day 2. -/
def stHalf : ServiceState :=
  ⟨Waypoint.group "r" none
    [Waypoint.leaf "x" (some 43200000), Waypoint.leaf "y" (some 194400000)], []⟩

/-- A state with a non-empty lookup cache, for the rebuild-failure claim. -/
def stCached : ServiceState :=
  ⟨Waypoint.group "daily-notes" none [Waypoint.leaf "a" (some 86400000)], [("a", 86400000)]⟩

/-- Two valid distinct-time leaves, listed newest first. -/
def gPair : Waypoint :=
  Waypoint.group "g" none [Waypoint.leaf "b" (some 172800000), Waypoint.leaf "a" (some 86400000)]

/-- A graph containing an empty sub-container (whose derived time is the
zero epoch). -/
def gNested : Waypoint :=
  Waypoint.group "g" none [Waypoint.leaf "a" (some 86400000), Waypoint.group "e" none []]

/-! Helper lemmas about the sort used by `traverse`. -/

theorem insertLe_perm (le : Waypoint → Waypoint → Bool) (a : Waypoint) :
    ∀ l : List Waypoint, (Timewalk.insertLe le a l).Perm (a :: l) := by
  intro l
  induction l with
  | nil => simp [Timewalk.insertLe]
  | cons b bs ih =>
    rw [Timewalk.insertLe]
    by_cases h : le a b
    · simp [h]
    · simp only [if_neg h]
      exact (ih.cons b).trans (List.Perm.swap a b bs)

theorem sortByLe_perm (le : Waypoint → Waypoint → Bool) :
    ∀ l : List Waypoint, (Timewalk.sortByLe le l).Perm l := by
  intro l
  induction l with
  | nil => simp [Timewalk.sortByLe]
  | cons x xs ih =>
    rw [Timewalk.sortByLe]
    exact (insertLe_perm le x (Timewalk.sortByLe le xs)).trans (ih.cons x)

theorem mem_traverse {root : Waypoint} {dir : Direction} {f : Timewalk.Filter}
    {inc : Bool} {w : Waypoint} :
    w ∈ Timewalk.traverse root dir f inc ↔
      w ∈ Timewalk.collectAllChildren root ∧ Timewalk.passesFilter f inc w = true := by
  rw [Timewalk.traverse, (sortByLe_perm _ _).mem_iff, List.mem_filter]

theorem dirLE_of_sortLe {dir : Direction} {a b : Waypoint}
    (h : Timewalk.sortLe dir a b = true) : dirLE dir a b ∨ a.time = none ∨ b.time = none := by
  cases ha : a.time with
  | none => exact Or.inr (Or.inl rfl)
  | some p =>
    cases hb : b.time with
    | none => exact Or.inr (Or.inr rfl)
    | some q =>
      left
      intro x y hx hy
      rw [ha] at hx; rw [hb] at hy
      cases hx; cases hy
      simp only [Timewalk.sortLe, Timewalk.jsCmp, ha, hb, decide_eq_true_eq] at h
      cases dir <;> simp_all

theorem dirLE_of_not_sortLe {dir : Direction} {a b : Waypoint}
    (h : Timewalk.sortLe dir a b = false) : dirLE dir b a := by
  intro x y hx hy
  simp only [Timewalk.sortLe, Timewalk.jsCmp, hx, hy, decide_eq_false_iff_not, not_le] at h
  cases dir <;> simp_all <;> omega

theorem dirLE_trans {dir : Direction} {a b c : Waypoint}
    (hb : (Waypoint.time b).isSome) (h1 : dirLE dir a b) (h2 : dirLE dir b c) :
    dirLE dir a c := by
  intro x z hx hz
  obtain ⟨y, hy⟩ := Option.isSome_iff_exists.mp hb
  have e1 := h1 x y hx hy
  have e2 := h2 y z hy hz
  cases dir <;> simp_all <;> omega

theorem pairwise_insertLe (dir : Direction) (a : Waypoint) :
    ∀ l : List Waypoint, (∀ w ∈ a :: l, (Waypoint.time w).isSome) →
      l.Pairwise (dirLE dir) →
      (Timewalk.insertLe (Timewalk.sortLe dir) a l).Pairwise (dirLE dir) := by
  intro l
  induction l with
  | nil => intro _ _; simp [Timewalk.insertLe]
  | cons b bs ih =>
    intro hv hp
    obtain ⟨hbRel, hbs⟩ := List.pairwise_cons.mp hp
    rw [Timewalk.insertLe]
    by_cases h : Timewalk.sortLe dir a b = true
    · rw [if_pos h]
      have hab : dirLE dir a b := by
        rcases dirLE_of_sortLe h with h' | h' | h'
        · exact h'
        · intro x y hx _; rw [h'] at hx; cases hx
        · intro x y _ hy; rw [h'] at hy; cases hy
      refine List.pairwise_cons.mpr ⟨?_, List.pairwise_cons.mpr ⟨hbRel, hbs⟩⟩
      intro w hw
      rcases List.mem_cons.mp hw with rfl | hw'
      · exact hab
      · exact dirLE_trans (hv b (by simp)) hab (hbRel w hw')
    · rw [if_neg h]
      refine List.pairwise_cons.mpr ⟨?_, ?_⟩
      · intro w hw
        have hw' : w ∈ a :: bs := (insertLe_perm _ _ _).mem_iff.mp hw
        rcases List.mem_cons.mp hw' with rfl | hw''
        · exact dirLE_of_not_sortLe (Bool.not_eq_true _ ▸ eq_false_of_ne_true h)
        · exact hbRel w hw''
      · refine ih ?_ hbs
        intro w hw
        rcases List.mem_cons.mp hw with rfl | hw'
        · exact hv w (by simp)
        · exact hv w (by simp [hw'])

theorem pairwise_sortByLe (dir : Direction) :
    ∀ l : List Waypoint, (∀ w ∈ l, (Waypoint.time w).isSome) →
      (Timewalk.sortByLe (Timewalk.sortLe dir) l).Pairwise (dirLE dir) := by
  intro l
  induction l with
  | nil => intro _; simp [Timewalk.sortByLe]
  | cons x xs ih =>
    intro hv
    rw [Timewalk.sortByLe]
    refine pairwise_insertLe dir x _ ?_ (ih ?_)
    · intro w hw
      rcases List.mem_cons.mp hw with rfl | hw'
      · exact hv w (by simp)
      · exact hv w (by simp [(sortByLe_perm _ xs).mem_iff.mp hw'])
    · intro w hw
      exact hv w (by simp [hw])

theorem pairwise_traverse (root : Waypoint) (dir : Direction) (f : Timewalk.Filter)
    (inc : Bool)
    (hv : ∀ w ∈ Timewalk.traverse root dir f inc, (Waypoint.time w).isSome) :
    (Timewalk.traverse root dir f inc).Pairwise (dirLE dir) := by
  rw [Timewalk.traverse] at *
  refine pairwise_sortByLe dir _ ?_
  intro w hw
  exact hv w ((sortByLe_perm _ _).mem_iff.mpr hw)

theorem eq_of_perm_of_pairwise {α : Type} {R : α → α → Prop} :
    ∀ (l₁ l₂ : List α), l₁.Perm l₂ → l₁.Pairwise R → l₂.Pairwise R →
      (∀ a ∈ l₁, ∀ b ∈ l₁, R a b → R b a → a = b) → l₁ = l₂ := by
  intro l₁
  induction l₁ with
  | nil =>
    intro l₂ hp _ _ _
    exact hp.nil_eq
  | cons a t ih =>
    intro l₂ hp h1 h2 anti
    cases l₂ with
    | nil => cases hp.symm.nil_eq
    | cons b t₂ =>
      have hab : a = b := by
        by_contra hne
        have ha2 : a ∈ b :: t₂ := hp.mem_iff.mp (by simp)
        have hat2 : a ∈ t₂ := by
          rcases List.mem_cons.mp ha2 with h' | h'
          · exact absurd h' hne
          · exact h'
        have hbt : b ∈ t := by
          have : b ∈ a :: t := hp.symm.mem_iff.mp (by simp)
          rcases List.mem_cons.mp this with h' | h'
          · exact absurd h'.symm hne
          · exact h'
        have r1 : R a b := (List.pairwise_cons.mp h1).1 b hbt
        have r2 : R b a := (List.pairwise_cons.mp h2).1 a hat2
        exact hne (anti a (by simp) b (by simp [hbt]) r1 r2)
      subst hab
      have hpt : t.Perm t₂ := hp.cons_inv
      have hrec := ih t₂ hpt (List.pairwise_cons.mp h1).2 (List.pairwise_cons.mp h2).2
        (fun x hx y hy => anti x (by simp [hx]) y (by simp [hy]))
      rw [hrec]

theorem pairwise_timeSLT_of_dirLE_future {l : List Waypoint}
    (hle : l.Pairwise (dirLE .future))
    (hnd : (l.map Waypoint.time).Nodup) :
    l.Pairwise timeSLT := by
  have hne : l.Pairwise (fun a b => Waypoint.time a ≠ Waypoint.time b) :=
    List.pairwise_map.mp hnd
  refine (hle.and hne).imp_of_mem ?_
  intro a b _ _ hab
  intro x y hx hy
  have h1 := hab.1 x y hx hy
  have h2 : x ≠ y := by
    intro h
    exact hab.2 (by rw [hx, hy, h])
  omega

theorem pairwise_timeSGT_of_dirLE_past {l : List Waypoint}
    (hle : l.Pairwise (dirLE .past))
    (hnd : (l.map Waypoint.time).Nodup) :
    l.Pairwise (fun a b => timeSLT b a) := by
  have hne : l.Pairwise (fun a b => Waypoint.time a ≠ Waypoint.time b) :=
    List.pairwise_map.mp hnd
  refine (hle.and hne).imp_of_mem ?_
  intro a b _ _ hab
  intro x y hx hy
  have h1 := hab.1 y x hy hx
  have h2 : y ≠ x := by
    intro h
    exact hab.2 (by rw [hx, hy, h])
  omega

/-! Helper lemmas about calendar-day ranges and the timeline builder. -/

theorem isMidnight_elim {w : Waypoint} (h : isMidnight w = true) :
    ∃ k : Int, Waypoint.time w = some (k * 86400000) := by
  unfold isMidnight at h
  cases ht : Waypoint.time w with
  | none => rw [ht] at h; cases h
  | some t =>
    rw [ht] at h
    simp only [beq_iff_eq] at h
    refine ⟨t / 86400000, ?_⟩
    congr 1
    omega

theorem dayOf_mul (k : Int) : Timewalk.dayOf (k * 86400000) = k := by
  unfold Timewalk.dayOf
  omega

theorem dayRange_singleton (a : Int) : dayRange a a = [a] := by
  have h1 : ((a : Int) - a + 1).toNat = 1 := by omega
  unfold dayRange
  rw [h1]
  simp [List.range_succ]

theorem dayRange_append {a m b : Int} (h1 : a ≤ m) (h2 : m ≤ b + 1) :
    dayRange a (m - 1) ++ dayRange m b = dayRange a b := by
  unfold dayRange
  have hp : (m - 1 - a + 1).toNat = (m - a).toNat := by omega
  have hq : (b - a + 1).toNat = (m - a).toNat + (b - m + 1).toNat := by omega
  rw [hp, hq, List.range_add, List.map_append, List.map_map]
  congr 1
  apply List.map_congr_left
  intro i _
  simp only [Function.comp_apply]
  push_cast
  omega

theorem expandDays_cons (x : GlobalNavItem) (l : List GlobalNavItem) :
    expandDays (x :: l) = expandItem x ++ expandDays l := by
  simp [expandDays]

theorem expandDays_nil : expandDays [] = [] := rfl

theorem expandDays_append (l₁ l₂ : List GlobalNavItem) :
    expandDays (l₁ ++ l₂) = expandDays l₁ ++ expandDays l₂ := by
  simp [expandDays]

theorem buildItems_single (a c : Option Int) (w : Waypoint) :
    buildItems a c [w] =
      [GlobalNavItem.note w.time w.identifier (fmtEq w.time a) (fmtEq w.time c)] := rfl

theorem buildItems_cons₂ (a c : Option Int) (w w' : Waypoint) (rest : List Waypoint) :
    buildItems a c (w :: w' :: rest) =
      GlobalNavItem.note w.time w.identifier (fmtEq w.time a) (fmtEq w.time c) ::
      ((match Waypoint.time w, Waypoint.time w' with
        | some t, some t' =>
          if 0 < (t' - t).tdiv 86400000 - 1 then
            [GlobalNavItem.gap (some (t + 86400000)) ((t' - t).tdiv 86400000 - 1)]
          else []
        | _, _ => []) ++ buildItems a c (w' :: rest)) := rfl

theorem buildItems_ne_nil (a c : Option Int) (w : Waypoint) (rest : List Waypoint) :
    buildItems a c (w :: rest) ≠ [] := by
  cases rest with
  | nil => rw [buildItems_single]; exact List.cons_ne_nil _ _
  | cons w' rest' => rw [buildItems_cons₂]; exact List.cons_ne_nil _ _

theorem buildItems_last_note (a c : Option Int) :
    ∀ (l : List Waypoint) (w : Waypoint) (rest : List Waypoint), l = w :: rest →
      ∃ d f ia ic, (buildItems a c l).getLast? = some (GlobalNavItem.note d f ia ic) := by
  intro l
  induction l with
  | nil => intro w rest h; cases h
  | cons x xs ih =>
    intro w rest h
    cases h
    cases xs with
    | nil =>
      refine ⟨x.time, x.identifier, fmtEq x.time a, fmtEq x.time c, ?_⟩
      rw [buildItems_single]
      rfl
    | cons w' rest' =>
      obtain ⟨d, f, ia, ic, hlast⟩ := ih w' rest' rfl
      refine ⟨d, f, ia, ic, ?_⟩
      rw [buildItems_cons₂, ← List.cons_append,
        List.getLast?_append_of_ne_nil _ (buildItems_ne_nil a c w' rest')]
      exact hlast

theorem buildItems_expand (a c : Option Int) :
    ∀ l : List Waypoint,
      (∀ w ∈ l, isMidnight w = true) →
      l.Pairwise timeSLT →
      ∀ w₀ t₀ wₙ tₙ, l.head? = some w₀ → Waypoint.time w₀ = some t₀ →
        l.getLast? = some wₙ → Waypoint.time wₙ = some tₙ →
        expandDays (buildItems a c l) =
          dayRange (Timewalk.dayOf t₀) (Timewalk.dayOf tₙ) := by
  intro l
  induction l with
  | nil => intro _ _ w₀ t₀ wₙ tₙ h; cases h
  | cons w rest ih =>
    intro hm hp w₀ t₀ wₙ tₙ hh ht0 hl htn
    have hw0 : w₀ = w := by
      rw [List.head?_cons, Option.some_inj] at hh
      exact hh.symm
    subst hw0
    obtain ⟨k, htk⟩ := isMidnight_elim (hm w₀ (by simp))
    have ht0k : t₀ = k * 86400000 := by
      rw [ht0] at htk
      exact Option.some_inj.mp htk
    subst ht0k
    cases rest with
    | nil =>
      have hwn : wₙ = w₀ := by
        rw [List.getLast?_singleton, Option.some_inj] at hl
        exact hl.symm
      subst hwn
      have htnk : tₙ = k * 86400000 := by
        rw [ht0] at htn
        exact (Option.some_inj.mp htn).symm
      subst htnk
      rw [buildItems_single, expandDays_cons, ht0]
      simp only [expandItem, expandDays, List.map_nil, List.flatten_nil, List.append_nil]
      exact (dayRange_singleton _).symm
    | cons w' rest' =>
      obtain ⟨k', htk'⟩ := isMidnight_elim (hm w' (by simp))
      have hlt : timeSLT w₀ w' := (List.pairwise_cons.mp hp).1 w' (by simp)
      have hkk : k < k' := by
        have := hlt _ _ ht0 htk'
        omega
      rw [List.getLast?_cons_cons] at hl
      have hwn : wₙ ∈ w' :: rest' := by
        obtain ⟨hne, hx⟩ := List.mem_getLast?_eq_getLast (Option.mem_def.mpr hl)
        rw [hx]
        exact List.getLast_mem hne
      obtain ⟨kn, htkn⟩ := isMidnight_elim (hm wₙ (by simp [hwn]))
      have htnk : tₙ = kn * 86400000 := by
        rw [htn] at htkn
        exact Option.some_inj.mp htkn
      subst htnk
      have hkn : k' ≤ kn := by
        rcases List.mem_cons.mp hwn with rfl | hmem
        · rw [htk'] at htn
          have := Option.some_inj.mp htn
          omega
        · have hlt' : timeSLT w' wₙ :=
            (List.pairwise_cons.mp (List.pairwise_cons.mp hp).2).1 wₙ hmem
          have := hlt' _ _ htk' htn
          omega
      have hrec := ih (fun x hx => hm x (by simp [hx]))
        (List.pairwise_cons.mp hp).2 w' (k' * 86400000) wₙ (kn * 86400000)
        List.head?_cons htk' hl htn
      rw [buildItems_cons₂, expandDays_cons, ht0, htk']
      simp only [dayOf_mul] at hrec ⊢
      have hsub : (k' * 86400000 - k * 86400000).tdiv 86400000 - 1 = k' - k - 1 := by
        rw [← Int.sub_mul, Int.mul_tdiv_cancel _ (by norm_num)]
      simp only [expandItem, dayOf_mul, hsub]
      by_cases hgap : 0 < k' - k - 1
      · rw [if_pos hgap]
        rw [expandDays_append, expandDays_cons, expandDays_nil, List.append_nil, hrec]
        have hday : k * 86400000 + 86400000 = (k + 1) * 86400000 := by ring
        simp only [expandItem, hday, dayOf_mul]
        have hchunk :
            (List.range (k' - k - 1).toNat).map (fun (i : Nat) => (k + 1) + (i : Int)) =
              dayRange (k + 1) (k' - 1) := by
          unfold dayRange
          congr 2
          omega
        rw [hchunk, ← List.append_assoc, List.append_assoc]
        have h2 : dayRange (k + 1) (k' - 1) ++ dayRange k' kn = dayRange (k + 1) kn :=
          dayRange_append (a := k + 1) (m := k') (b := kn) (by omega) (by omega)
        rw [h2]
        have h3 : dayRange k k ++ dayRange (k + 1) kn = dayRange k kn := by
          have := dayRange_append (a := k) (m := k + 1) (b := kn) (by omega) (by omega)
          rw [show k + 1 - 1 = k by omega] at this
          exact this
        rw [← h3, dayRange_singleton]
      · rw [if_neg hgap]
        have hk1 : k' = k + 1 := by omega
        rw [List.nil_append, hrec]
        have h3 : dayRange k k ++ dayRange k' kn = dayRange k kn := by
          have := dayRange_append (a := k) (m := k') (b := kn) (by omega) (by omega)
          rw [show k' - 1 = k by omega] at this
          exact this
        rw [← h3, dayRange_singleton]

/-! Helper lemmas about the traverse filter, `navigate`, `findIdx?` and the
rebuild fold. -/

theorem valid_of_passesFilter {f : Timewalk.Filter} {w : Waypoint}
    (h : Timewalk.passesFilter f false w = true) (hc : w.isContainer = false) :
    ∃ t, Waypoint.time w = some t ∧ t ≠ 0 := by
  unfold Timewalk.passesFilter at h
  have h2 := (Bool.and_eq_true _ _ |>.mp h).2
  rw [hc] at h2
  simp only [Bool.false_or] at h2
  cases ht : Waypoint.time w with
  | none => rw [ht] at h2; cases h2
  | some t =>
    rw [ht] at h2
    simp only [Bool.not_eq_true', beq_eq_false_iff_ne, ne_eq] at h2
    exact ⟨t, rfl, h2⟩

theorem navigateGo_eq_find? (target : Option Int) :
    ∀ l : List Waypoint,
      Timewalk.navigateGo target l =
        l.find? (fun n => !n.isContainer && Timewalk.msEq n.time target) := by
  intro l
  induction l with
  | nil => rfl
  | cons n rest ih =>
    rw [Timewalk.navigateGo, List.find?_cons]
    by_cases hc : n.isContainer
    · simp [hc, ih]
    · by_cases hm : Timewalk.msEq n.time target
      · simp [hc, hm]
      · simp [hc, hm, ih]

theorem navigateGo_none : ∀ l : List Waypoint, Timewalk.navigateGo none l = none := by
  intro l
  induction l with
  | nil => rfl
  | cons n rest ih =>
    rw [Timewalk.navigateGo]
    have hm : Timewalk.msEq n.time none = false := by
      cases n.time <;> rfl
    by_cases hc : n.isContainer
    · simpa [hc] using ih
    · simpa [hc, hm] using ih

theorem findIdx?_head_true {l : List Waypoint} {w : Waypoint} {p : Waypoint → Bool}
    (h : p w = true) : List.findIdx? p (w :: l) = some 0 := by
  simp [List.findIdx?_cons, h]

theorem findIdx?_last_only :
    ∀ (l' : List Waypoint) (wn : Waypoint) (p : Waypoint → Bool),
      (∀ w ∈ l', p w = false) → p wn = true →
      List.findIdx? p (l' ++ [wn]) = some l'.length := by
  intro l'
  induction l' with
  | nil => intro wn p _ hl; simpa [List.findIdx?_cons] using hl
  | cons x xs ih =>
    intro wn p hf hl
    have hx : p x = false := hf x (by simp)
    rw [List.cons_append, List.findIdx?_cons, if_neg (by simp [hx]), List.findIdx?_succ,
      ih wn p (fun w hw => hf w (by simp [hw])) hl]
    rfl

theorem mapGet_mapSet (m : List (String × Int)) (k : String) (v : Int) (p : String) :
    TimewalkService.mapGet (TimewalkService.mapSet m k v) p =
      if k = p then some v else TimewalkService.mapGet m p := by
  induction m with
  | nil => rfl
  | cons kv rest ih =>
    obtain ⟨k', v'⟩ := kv
    rw [TimewalkService.mapSet]
    by_cases h1 : k' = k
    · rw [if_pos h1]
      subst h1
      rw [TimewalkService.mapGet, TimewalkService.mapGet]
      by_cases h2 : k' = p
      · simp [h2]
      · simp [h2]
    · rw [if_neg h1, TimewalkService.mapGet, TimewalkService.mapGet]
      by_cases h2 : k' = p
      · subst h2
        rw [if_pos rfl, if_pos rfl, if_neg (fun h => h1 h.symm)]
      · rw [if_neg h2, if_neg h2, ih]

theorem rebuild_children_map :
    ∀ (files : List String) (acc : List Waypoint × List (String × Int)),
      (files.foldl TimewalkService.rebuildStep acc).1 =
        acc.1 ++ files.filterMap mkDailyLeaf := by
  intro files
  induction files with
  | nil => intro acc; simp
  | cons p ps ih =>
    intro acc
    rw [List.foldl_cons, ih, List.filterMap_cons]
    cases hc : pathCaptures p with
    | none =>
      rw [TimewalkService.rebuildStep, hc]
      simp [mkDailyLeaf, hc]
    | some ymd =>
      obtain ⟨y, m, d⟩ := ymd
      rw [TimewalkService.rebuildStep, hc]
      simp [mkDailyLeaf, hc]

theorem rebuild_cache_sound :
    ∀ (files : List String) (acc : List Waypoint × List (String × Int)) (p : String) (t : Int),
      (TimewalkService.mapGet acc.2 p = some t →
        ∃ y m d : Nat, pathCaptures p = some (y, m, d) ∧
          t = dateUTC (y : Int) ((m : Int) - 1) (d : Int)) →
      TimewalkService.mapGet (files.foldl TimewalkService.rebuildStep acc).2 p = some t →
      ∃ y m d : Nat, pathCaptures p = some (y, m, d) ∧
        t = dateUTC (y : Int) ((m : Int) - 1) (d : Int) := by
  intro files
  induction files with
  | nil => intro acc p t hinv h; exact hinv h
  | cons q qs ih =>
    intro acc p t hinv h
    rw [List.foldl_cons] at h
    refine ih _ p t ?_ h
    intro hget
    cases hc : pathCaptures q with
    | none =>
      rw [TimewalkService.rebuildStep, hc] at hget
      exact hinv hget
    | some ymd =>
      obtain ⟨y, m, d⟩ := ymd
      rw [TimewalkService.rebuildStep, hc] at hget
      simp only at hget
      rw [mapGet_mapSet] at hget
      by_cases hqp : q = p
      · subst hqp
        rw [if_pos rfl] at hget
        exact ⟨y, m, d, hc, (Option.some_inj.mp hget).symm⟩
      · rw [if_neg hqp] at hget
        exact hinv hget

theorem dateUTC_of_valid {y m d : Int} (hy : 100 ≤ y) (hm1 : 1 ≤ m) (hm2 : m ≤ 12) :
    dateUTC y (m - 1) d = daysFromCivil y m d * 86400000 := by
  unfold dateUTC jsUTCYear makeDayJS
  rw [if_neg (by simp; omega)]
  have e1 : (m - 1) / 12 = 0 := by omega
  have e2 : (m - 1) % 12 + 1 = m := by omega
  rw [e1, e2, add_zero]

theorem searchCore_isSome_of_test :
    ∀ s : List Char, testDailyNoteAux s = true → (searchCore s).isSome := by
  intro s
  induction s with
  | nil => intro h; cases h
  | cons c rest ih =>
    intro h
    rw [testDailyNoteAux, Bool.or_eq_true] at h
    rw [searchCore]
    cases hca : coreAt (c :: rest) with
    | some v =>
      obtain ⟨y, m, d, r⟩ := v
      simp
    | none =>
      rcases h with h1 | h2
      · unfold testAt at h1
        rw [hca] at h1
        cases h1
      · simpa using ih h2

/-! Claim theorems. -/

/-- C4 (counterexample): rebuild on a failing listing does not leave the
lookup cache unchanged — the cache is cleared before the listing call, so
after the failure the old graph is paired with an emptied cache. -/
theorem c4_cache_cleared_counterexample :
    (TimewalkService.rebuild (ε := Unit) stCached (.error ())).1 ≠ stCached ∧
    (TimewalkService.rebuild (ε := Unit) stCached (.error ())).1.waypointMap = [] ∧
    stCached.waypointMap = [("a", 86400000)] ∧
    (TimewalkService.rebuild (ε := Unit) stCached (.error ())).1.timewalk =
      stCached.timewalk := by
  decide

/-- C4 (amended): when the external listing call fails, rebuild leaves the
previous graph unchanged, never substitutes an empty graph, and propagates
the error; but the lookup cache has already been cleared, so a subsequent
query observes the old graph with an empty cache.  A successful listing
propagates no error. -/
theorem c4_rebuild_failure :
    ∀ (ε : Type) (st : ServiceState) (e : ε),
      (TimewalkService.rebuild st (.error e)).1.timewalk = st.timewalk ∧
      (TimewalkService.rebuild st (.error e)).2 = some e ∧
      (TimewalkService.rebuild st (.error e)).1.waypointMap = [] ∧
      ∀ files : List String,
        (TimewalkService.rebuild st (.ok files) : ServiceState × Option ε).2 = none := by
  intro ε st e
  exact ⟨rfl, rfl, rfl, fun _ => rfl⟩

/-- C8: on the graph built from items dated 2025-01-01, 2025-01-02 and
2025-01-05, `buildGlobalTimeline` with active date 2025-01-02 (and current
date 2025-01-06) returns exactly: note 01-01, note 01-02 with isActive,
gap dated 01-03 with gapCount 2, note 01-05. -/
theorem c8_concrete_timeline :
    buildGlobalTimeline stJan (some 1735776000000) (some 1736121600000) =
      [GlobalNavItem.note (some 1735689600000) "2025/01. Jan/01 Wed.md" false false,
       GlobalNavItem.note (some 1735776000000) "2025/01. Jan/02 Thu.md" true false,
       GlobalNavItem.gap (some 1735862400000) 2,
       GlobalNavItem.note (some 1736035200000) "2025/01. Jan/05 Sun.md" false false] ∧
    Timewalk.dayOf 1735862400000 = daysFromCivil 2025 1 3 ∧
    Timewalk.dayOf 1735776000000 = daysFromCivil 2025 1 2 ∧
    Timewalk.dayOf 1735689600000 = daysFromCivil 2025 1 1 ∧
    Timewalk.dayOf 1736035200000 = daysFromCivil 2025 1 5 := by
  decide

/-- C10: the calendar-validity exclusion applies only to non-containers:
any container in the flattening that passes the kind filter (all or
containers) is visited even with includeNonCalendar false, and a childless
container's derived time is the zero epoch. -/
theorem c10_container_visited :
    ∀ (g : Waypoint) (dir : Direction) (w : Waypoint),
      (w.isContainer = true → w ∈ Timewalk.collectAllChildren g →
        w ∈ Timewalk.traverse g dir .all false ∧
        w ∈ Timewalk.traverse g dir .containers false) ∧
      (∀ id : String, (Waypoint.group id none []).time = some 0) := by
  intro g dir w
  refine ⟨fun hc hm => ⟨?_, ?_⟩, fun id => rfl⟩
  · exact mem_traverse.mpr ⟨hm, by simp [Timewalk.passesFilter, hc]⟩
  · exact mem_traverse.mpr ⟨hm, by simp [Timewalk.passesFilter, hc]⟩

/-- C10 (witness): in a graph with an empty sub-container, that container
is visited by traverse with both kind filters, and its derived time is the
zero epoch. -/
theorem c10_container_visited_witness :
    (Waypoint.group "e" none [] ∈ Timewalk.traverse gNested .past .all false ∧
      Waypoint.group "e" none [] ∈ Timewalk.traverse gNested .past .containers false) ∧
    (Waypoint.group "e" none []).time = some 0 := by
  refine ⟨(c10_container_visited gNested .past (Waypoint.group "e" none [])).1
    (by decide) (by decide), (c10_container_visited gNested .past
      (Waypoint.group "e" none [])).2 "e"⟩

/-- C5: navigate returns the first non-container in pre-order flattening
order whose time equals the target at millisecond precision, returns none
when no such leaf exists, and returns none (rather than failing) for an
invalid target date. -/
theorem c5_navigate_spec :
    ∀ (g : Waypoint) (target : Option Int),
      Timewalk.navigate g target =
        (Timewalk.collectAllChildren g).find?
          (fun n => !n.isContainer && Timewalk.msEq n.time target) ∧
      Timewalk.navigate g none = none ∧
      (Timewalk.navigate g target = none ↔
        ∀ w ∈ Timewalk.collectAllChildren g, w.isContainer = false →
          Timewalk.msEq w.time target = false) := by
  intro g target
  refine ⟨navigateGo_eq_find? target _, navigateGo_none _, ?_⟩
  rw [Timewalk.navigate, navigateGo_eq_find? target _, List.find?_eq_none]
  constructor
  · intro h w hw hc
    have := h w hw
    simpa [hc] using this
  · intro h w hw
    by_cases hc : w.isContainer
    · simp [hc]
    · have hc' : w.isContainer = false := by simpa using hc
      simp [hc', h w hw hc']

/-- C5 (witness): the characterization evaluated on a concrete graph and
target. -/
theorem c5_navigate_witness :
    Timewalk.navigate gPair (some 86400000) =
      (Timewalk.collectAllChildren gPair).find?
        (fun n => !n.isContainer && Timewalk.msEq n.time (some 86400000)) ∧
    Timewalk.navigate gPair none = none ∧
    (Timewalk.navigate gPair (some 86400000) = none ↔
      ∀ w ∈ Timewalk.collectAllChildren gPair, w.isContainer = false →
        Timewalk.msEq w.time (some 86400000) = false) :=
  c5_navigate_spec gPair (some 86400000)

/-- C3 (counterexample): a zero-epoch leaf is returned by `find` when the
target falls on the epoch's calendar day, so "never returned by find" is
false for zero-epoch leaves. -/
theorem c3_find_zero_epoch_counterexample :
    Waypoint.leaf "z" (some 0) ∈ Timewalk.find gZeroLeaf (some 0) ∧
    (Waypoint.leaf "z" (some 0)).time = some 0 ∧
    (Waypoint.leaf "z" (some 0)).isContainer = false := by
  decide

/-- C3 (amended): a leaf with a missing/invalid or zero-epoch time is
excluded from traverse unless includeNonCalendar is set, and `find` never
returns a leaf with an invalid time; but a zero-epoch leaf IS returned by
`find` when the target is on the epoch's calendar day. -/
theorem c3_calendar_exclusion :
    ∀ (g : Waypoint) (dir : Direction) (f : Timewalk.Filter) (target : Option Int)
      (w : Waypoint),
      (w ∈ Timewalk.traverse g dir f false → w.isContainer = false →
        ∃ t, Waypoint.time w = some t ∧ t ≠ 0) ∧
      (w ∈ Timewalk.find g target → ∃ t, Waypoint.time w = some t) ∧
      (w ∈ Timewalk.collectAllChildren g → w.isContainer = false →
        Waypoint.time w = some 0 → w ∈ Timewalk.find g (some 0)) := by
  intro g dir f target w
  refine ⟨fun hmem hc => ?_, fun hmem => ?_, fun hmem hc ht => ?_⟩
  · exact valid_of_passesFilter (mem_traverse.mp hmem).2 hc
  · have h := (List.mem_filter.mp hmem).2
    have h2 := (Bool.and_eq_true _ _ |>.mp h).2
    cases htw : Waypoint.time w with
    | none =>
      rw [htw] at h2
      cases target <;> simp [Timewalk.isSameDayO] at h2
    | some t => exact ⟨t, rfl⟩
  · refine List.mem_filter.mpr ⟨hmem, ?_⟩
    simp [hc, ht, Timewalk.isSameDayO]

/-- C3 (witness): the three parts evaluated at concrete inputs — a valid
leaf surviving traverse has a nonzero valid time, a leaf returned by find
has a valid time, and the zero-epoch leaf is found for an epoch-day
target. -/
theorem c3_calendar_exclusion_witness :
    (∃ t, (Waypoint.leaf "a" (some 86400000)).time = some t ∧ t ≠ 0) ∧
    (∃ t, (Waypoint.leaf "z" (some 0)).time = some t) ∧
    Waypoint.leaf "z" (some 0) ∈ Timewalk.find gZeroLeaf (some 0) := by
  refine ⟨(c3_calendar_exclusion gPair .future .leaves (some 0)
      (Waypoint.leaf "a" (some 86400000))).1 (by decide) (by decide),
    (c3_calendar_exclusion gZeroLeaf .future .leaves (some 0)
      (Waypoint.leaf "z" (some 0))).2.1 (by decide),
    (c3_calendar_exclusion gZeroLeaf .future .leaves (some 0)
      (Waypoint.leaf "z" (some 0))).2.2 (by decide) (by decide) (by decide)⟩

/-- C2: with filter leaves, when every surviving leaf carries a valid
millisecond time, the future direction visits leaves in non-decreasing
time order and the past direction in non-increasing order; when
additionally no two surviving leaves share the same millisecond time, the
future output reversed equals the past output. -/
theorem c2_traversal_ordering :
    ∀ (g : Waypoint) (inc : Bool),
      (∀ w ∈ Timewalk.traverse g .future .leaves inc, (Waypoint.time w).isSome) →
      (Timewalk.traverse g .future .leaves inc).Pairwise (dirLE .future) ∧
      (Timewalk.traverse g .past .leaves inc).Pairwise (dirLE .past) ∧
      (((Timewalk.traverse g .future .leaves inc).map Waypoint.time).Nodup →
        (Timewalk.traverse g .future .leaves inc).reverse =
          Timewalk.traverse g .past .leaves inc) := by
  intro g inc hv
  have hmemfp : ∀ w, w ∈ Timewalk.traverse g .past .leaves inc ↔
      w ∈ Timewalk.traverse g .future .leaves inc := by
    intro w
    rw [mem_traverse, mem_traverse]
  have hvp : ∀ w ∈ Timewalk.traverse g .past .leaves inc, (Waypoint.time w).isSome :=
    fun w hw => hv w ((hmemfp w).mp hw)
  have hpf := pairwise_traverse g .future .leaves inc hv
  have hpp := pairwise_traverse g .past .leaves inc hvp
  refine ⟨hpf, hpp, ?_⟩
  intro hnd
  have hpermf : (Timewalk.traverse g .future .leaves inc).Perm
      ((Timewalk.collectAllChildren g).filter (Timewalk.passesFilter .leaves inc)) :=
    sortByLe_perm _ _
  have hpermp : (Timewalk.traverse g .past .leaves inc).Perm
      ((Timewalk.collectAllChildren g).filter (Timewalk.passesFilter .leaves inc)) :=
    sortByLe_perm _ _
  have hfp : (Timewalk.traverse g .future .leaves inc).Perm
      (Timewalk.traverse g .past .leaves inc) := hpermf.trans hpermp.symm
  have hndp : ((Timewalk.traverse g .past .leaves inc).map Waypoint.time).Nodup :=
    ((hfp.map Waypoint.time).nodup_iff).mp hnd
  have hslt := pairwise_timeSLT_of_dirLE_future hpf hnd
  have hsgt := pairwise_timeSGT_of_dirLE_past hpp hndp
  have hrev : ((Timewalk.traverse g .future .leaves inc).reverse).Pairwise
      (fun a b => timeSLT b a) := List.pairwise_reverse.mpr hslt
  have hp2 : ((Timewalk.traverse g .future .leaves inc).reverse).Perm
      (Timewalk.traverse g .past .leaves inc) :=
    ((Timewalk.traverse g .future .leaves inc).reverse_perm).trans hfp
  refine eq_of_perm_of_pairwise _ _ hp2 hrev hsgt ?_
  intro a ha b hb r1 r2
  have hva : (Waypoint.time a).isSome := hv a (List.mem_reverse.mp ha)
  have hvb : (Waypoint.time b).isSome := hv b (List.mem_reverse.mp hb)
  obtain ⟨ta, hta⟩ := Option.isSome_iff_exists.mp hva
  obtain ⟨tb, htb⟩ := Option.isSome_iff_exists.mp hvb
  have h1 := r1 tb ta htb hta
  have h2 := r2 ta tb hta htb
  omega

/-- C2 (witness): the ordering and reversal statements evaluated on a
concrete two-leaf graph with distinct valid times. -/
theorem c2_traversal_ordering_witness :
    (Timewalk.traverse gPair .future .leaves false).Pairwise (dirLE .future) ∧
    (Timewalk.traverse gPair .past .leaves false).Pairwise (dirLE .past) ∧
    (((Timewalk.traverse gPair .future .leaves false).map Waypoint.time).Nodup →
      (Timewalk.traverse gPair .future .leaves false).reverse =
        Timewalk.traverse gPair .past .leaves false) :=
  c2_traversal_ordering gPair false (by decide)

/-- C7 (counterexample): the pattern-matching path with captured year 0099
becomes a leaf dated 1999-01-01 (the `Date.UTC` two-digit-year rewrite),
not UTC midnight of year 99, so "exactly UTC midnight of the captured
year-month-day" fails. -/
theorem c7_year_shift_counterexample :
    testDailyNote pShift = true ∧
    pathCaptures pShift = some (99, 1, 1) ∧
    (stShift.timewalk).children = [Waypoint.leaf pShift (some 915148800000)] ∧
    (915148800000 : Int) = daysFromCivil 1999 1 1 * 86400000 ∧
    daysFromCivil 99 1 1 * 86400000 ≠ (915148800000 : Int) := by
  decide

/-- C7 (amended): rebuild keeps exactly the listing paths passing the
filter pattern, as leaves dated by `Date.UTC` on the leftmost captures
(two-digit-range years rewritten to 1900–1999, out-of-range fields rolled
over); for captured year at least 100 and an in-range month this is
exactly UTC midnight of the captured date; non-matching paths yield no
graph entry; `2025/03. Mar/07 Fri.md` maps to 2025-03-07T00:00:00Z and
`notes/random.md` is excluded. -/
theorem c7_path_pattern :
    ∀ (st : ServiceState) (files : List String) (p : String),
      ((TimewalkService.rebuild (ε := Unit) st (.ok files)).1.timewalk =
        Waypoint.group "daily-notes" none
          ((files.filter testDailyNote).filterMap mkDailyLeaf)) ∧
      (testDailyNote p = true → p ∈ files →
        ∃ y m d : Nat, pathCaptures p = some (y, m, d) ∧
          Waypoint.leaf p (some (dateUTC (y : Int) ((m : Int) - 1) (d : Int))) ∈
            ((TimewalkService.rebuild (ε := Unit) st (.ok files)).1.timewalk).children) ∧
      (testDailyNote p = false →
        ∀ w ∈ ((TimewalkService.rebuild (ε := Unit) st (.ok files)).1.timewalk).children,
          w.identifier ≠ p) ∧
      (∀ y m d : Int, 100 ≤ y → 1 ≤ m → m ≤ 12 →
        dateUTC y (m - 1) d = daysFromCivil y m d * 86400000) ∧
      (TimewalkService.rebuild (ε := Unit) emptyState
          (.ok ["2025/03. Mar/07 Fri.md", "notes/random.md"])).1.timewalk.children =
        [Waypoint.leaf "2025/03. Mar/07 Fri.md" (some 1741305600000)] ∧
      daysFromCivil 2025 3 7 * 86400000 = (1741305600000 : Int) := by
  intro st files p
  have hchar : (TimewalkService.rebuild (ε := Unit) st (.ok files)).1.timewalk =
      Waypoint.group "daily-notes" none
        ((files.filter testDailyNote).filterMap mkDailyLeaf) := by
    rw [TimewalkService.rebuild]
    simp only
    rw [rebuild_children_map]
    rfl
  refine ⟨hchar, fun htest hmem => ?_, fun htest w hw => ?_, ?_, by decide, by decide⟩
  · have hsome : (searchCore p.toList).isSome := searchCore_isSome_of_test _ htest
    obtain ⟨ymd, hymd⟩ := Option.isSome_iff_exists.mp hsome
    obtain ⟨y, m, d⟩ := ymd
    refine ⟨y, m, d, hymd, ?_⟩
    rw [hchar]
    rw [Waypoint.children]
    refine List.mem_filterMap.mpr ⟨p, List.mem_filter.mpr ⟨hmem, htest⟩, ?_⟩
    rw [mkDailyLeaf, pathCaptures, hymd]
    rfl
  · rw [hchar, Waypoint.children] at hw
    obtain ⟨q, hq, hleaf⟩ := List.mem_filterMap.mp hw
    have hqtest : testDailyNote q = true := (List.mem_filter.mp hq).2
    have hid : w.identifier = q := by
      rw [mkDailyLeaf] at hleaf
      cases hcap : pathCaptures q with
      | none => rw [hcap] at hleaf; cases hleaf
      | some ymd =>
        rw [hcap] at hleaf
        obtain ⟨y, m, d⟩ := ymd
        have := Option.some_inj.mp hleaf
        rw [← this, Waypoint.identifier]
    intro hwp
    rw [hwp] at hid
    rw [← hid] at hqtest
    rw [hqtest] at htest
    cases htest
  · intro y m d hy hm1 hm2
    exact dateUTC_of_valid hy hm1 hm2

/-- C7 (witness): both directions of the pattern claim evaluated on the
concrete two-path listing. -/
theorem c7_path_pattern_witness :
    (∃ y m d : Nat, pathCaptures "2025/03. Mar/07 Fri.md" = some (y, m, d) ∧
      Waypoint.leaf "2025/03. Mar/07 Fri.md"
          (some (dateUTC (y : Int) ((m : Int) - 1) (d : Int))) ∈
        ((TimewalkService.rebuild (ε := Unit) emptyState
          (.ok ["2025/03. Mar/07 Fri.md", "notes/random.md"])).1.timewalk).children) ∧
    (∀ w ∈ ((TimewalkService.rebuild (ε := Unit) emptyState
        (.ok ["2025/03. Mar/07 Fri.md", "notes/random.md"])).1.timewalk).children,
      w.identifier ≠ "notes/random.md") := by
  refine ⟨(c7_path_pattern emptyState ["2025/03. Mar/07 Fri.md", "notes/random.md"]
      "2025/03. Mar/07 Fri.md").2.1 (by decide) (by decide),
    (c7_path_pattern emptyState ["2025/03. Mar/07 Fri.md", "notes/random.md"]
      "notes/random.md").2.2.1 (by decide)⟩

/-- C9 (counterexample): on the pattern-matching path with overflowing
month 99, the cached branch (populated by rebuild, which rolls the month
over) returns the 2033-03-07 date while the fallback branch (moment
validation) returns none, so the two branches are not equivalent on
pattern-matching paths. -/
theorem c9_overflow_counterexample :
    testDailyNote pOverflow = true ∧
    TimewalkService.mapGet stOverflow.waypointMap pOverflow = some 1993766400000 ∧
    TimewalkService.getDailyNoteDate stOverflow pOverflow = some 1993766400000 ∧
    fallbackDate pOverflow = none ∧
    TimewalkService.getDailyNoteDate emptyState pOverflow = none ∧
    (1993766400000 : Int) = daysFromCivil 2033 3 7 * 86400000 := by
  decide

/-- C9 (amended): getDailyNoteDate returns none exactly when the path is
absent from the cache and the fallback yields no valid date; on an
uncached path it equals the fallback; and the cached value (from any
rebuild) agrees with the fallback whenever the captured date is
calendar-valid with year at least 100 — for two-digit-range years or
overflowing month/day the branches diverge. -/
theorem c9_date_lookup :
    ∀ (st : ServiceState) (p : String),
      (TimewalkService.getDailyNoteDate st p = none ↔
        TimewalkService.mapGet st.waypointMap p = none ∧ fallbackDate p = none) ∧
      (TimewalkService.mapGet st.waypointMap p = none →
        TimewalkService.getDailyNoteDate st p = fallbackDate p) ∧
      (∀ (st₀ : ServiceState) (files : List String) (t : Int) (y m d : Nat),
        TimewalkService.mapGet
          ((TimewalkService.rebuild (ε := Unit) st₀ (.ok files)).1.waypointMap) p = some t →
        pathCaptures p = some (y, m, d) →
        100 ≤ (y : Int) → momentValidYMD (y : Int) (m : Int) (d : Int) = true →
        fallbackDate p = some t) := by
  intro st p
  refine ⟨?_, ?_, ?_⟩
  · rw [TimewalkService.getDailyNoteDate]
    cases hget : TimewalkService.mapGet st.waypointMap p with
    | none => simp
    | some t => simp
  · intro hget
    rw [TimewalkService.getDailyNoteDate, hget]
  · intro st₀ files t y m d hget hcap hy hvalid
    rw [TimewalkService.rebuild] at hget
    simp only at hget
    have hsound := rebuild_cache_sound (files.filter testDailyNote) ([], []) p t
      (by intro h; simp [TimewalkService.mapGet] at h) hget
    obtain ⟨y', m', d', hcap', ht⟩ := hsound
    rw [hcap] at hcap'
    obtain ⟨hy', hm', hd'⟩ : y = y' ∧ m = m' ∧ d = d' := by
      have := Option.some_inj.mp hcap'
      refine ⟨?_, ?_, ?_⟩ <;> simp_all
    subst hy'; subst hm'; subst hd'
    have hbounds : 1 ≤ (m : Int) ∧ (m : Int) ≤ 12 := by
      rw [momentValidYMD] at hvalid
      simp only [Bool.and_eq_true, decide_eq_true_eq] at hvalid
      exact ⟨hvalid.1.1.1, hvalid.1.1.2⟩
    rw [fallbackDate, hcap]
    dsimp only
    rw [if_pos hvalid, ht, dateUTC_of_valid hy hbounds.1 hbounds.2]

/-- C9 (witness): the lookup characterization and the cache/fallback
agreement evaluated on a valid concrete path. -/
theorem c9_date_lookup_witness :
    (TimewalkService.getDailyNoteDate emptyState "2025/03. Mar/07 Fri.md" = none ↔
      TimewalkService.mapGet emptyState.waypointMap "2025/03. Mar/07 Fri.md" = none ∧
        fallbackDate "2025/03. Mar/07 Fri.md" = none) ∧
    TimewalkService.getDailyNoteDate emptyState "2025/03. Mar/07 Fri.md" =
      fallbackDate "2025/03. Mar/07 Fri.md" ∧
    fallbackDate "2025/03. Mar/07 Fri.md" = some 1741305600000 := by
  refine ⟨(c9_date_lookup emptyState "2025/03. Mar/07 Fri.md").1,
    (c9_date_lookup emptyState "2025/03. Mar/07 Fri.md").2.1 (by decide),
    (c9_date_lookup emptyState "2025/03. Mar/07 Fri.md").2.2 emptyState
      ["2025/03. Mar/07 Fri.md"] 1741305600000 2025 3 7
      (by decide) (by decide) (by decide) (by decide)⟩

/-- C6 (counterexample): with two leaves on the same calendar day, asking
for the next note of the last leaf's date returns a file instead of none —
`findIndex` matches the earlier same-day leaf. -/
theorem c6_next_of_last_counterexample :
    (Timewalk.traverse stDup.timewalk .future .leaves false).getLast? =
      some (Waypoint.leaf "b" (some 86400001)) ∧
    Timewalk.isSameDayO (some 86400001) (some 86400001) = true ∧
    TimewalkService.getNextDailyNote stDup (some 86400001) = some "b" := by
  decide

/-- C6 (amended): previous-of-the-first-leaf's-date is none; both
directions are none when no leaf matches the supplied date by calendar-day
equality; and next-of-the-last-leaf's-date is none provided the leaves'
calendar days are pairwise distinct (with same-day duplicates the earlier
match makes next return a file). -/
theorem c6_adjacent_boundary :
    ∀ (st : ServiceState) (cur : Option Int),
      (∀ w₀, (Timewalk.traverse st.timewalk .future .leaves false).head? = some w₀ →
        Timewalk.isSameDayO w₀.time cur = true →
        TimewalkService.getPreviousDailyNote st cur = none) ∧
      ((∀ w ∈ Timewalk.traverse st.timewalk .future .leaves false,
          Timewalk.isSameDayO w.time cur = false) →
        TimewalkService.getPreviousDailyNote st cur = none ∧
        TimewalkService.getNextDailyNote st cur = none) ∧
      (((Timewalk.traverse st.timewalk .future .leaves false).map
          (fun w => (Waypoint.time w).map Timewalk.dayOf)).Nodup →
        ∀ wₙ, (Timewalk.traverse st.timewalk .future .leaves false).getLast? = some wₙ →
          Timewalk.isSameDayO wₙ.time cur = true →
          TimewalkService.getNextDailyNote st cur = none) := by
  intro st cur
  refine ⟨?_, ?_, ?_⟩
  · intro w₀ hh hsame
    cases hwl : Timewalk.traverse st.timewalk .future .leaves false with
    | nil => rw [hwl] at hh; cases hh
    | cons w rest =>
      rw [hwl, List.head?_cons, Option.some_inj] at hh
      subst hh
      simp only [TimewalkService.getPreviousDailyNote, TimewalkService.getSortedWaypoints,
        hwl]
      rw [findIdx?_head_true hsame]
      simp
  · intro hnone
    have hfi : (Timewalk.traverse st.timewalk .future .leaves false).findIdx?
        (fun w => Timewalk.isSameDayO w.time cur) = none :=
      List.findIdx?_eq_none_iff.mpr hnone
    constructor
    · simp only [TimewalkService.getPreviousDailyNote, TimewalkService.getSortedWaypoints,
        hfi]
    · simp only [TimewalkService.getNextDailyNote, TimewalkService.getSortedWaypoints,
        hfi]
  · intro hnd wₙ hlast hsame
    have hne : Timewalk.traverse st.timewalk .future .leaves false ≠ [] := by
      intro h
      rw [h] at hlast
      cases hlast
    have hdecomp : (Timewalk.traverse st.timewalk .future .leaves false).dropLast ++ [wₙ] =
        Timewalk.traverse st.timewalk .future .leaves false := by
      have h1 := List.dropLast_concat_getLast hne
      have h2 := List.getLast?_eq_getLast_of_ne_nil hne
      rw [h2, Option.some_inj] at hlast
      rw [hlast] at h1
      exact h1
    have hcur : ∃ tn c, Waypoint.time wₙ = some tn ∧ cur = some c ∧
        Timewalk.dayOf tn = Timewalk.dayOf c := by
      cases htn : Waypoint.time wₙ with
      | none => rw [Timewalk.isSameDayO.eq_def, htn] at hsame; cases cur <;> cases hsame
      | some tn =>
        cases hc : cur with
        | none => rw [Timewalk.isSameDayO.eq_def, htn, hc] at hsame; cases hsame
        | some c =>
          rw [Timewalk.isSameDayO.eq_def, htn, hc] at hsame
          simp only [beq_iff_eq] at hsame
          exact ⟨tn, c, rfl, rfl, hsame⟩
    obtain ⟨tn, c, htn, hc, hdays⟩ := hcur
    have hpne : ((Timewalk.traverse st.timewalk .future .leaves false).dropLast ++
        [wₙ]).Pairwise
          (fun a b => (Waypoint.time a).map Timewalk.dayOf ≠
            (Waypoint.time b).map Timewalk.dayOf) := by
      rw [hdecomp]
      exact List.pairwise_map.mp hnd
    have hbefore : ∀ w ∈ (Timewalk.traverse st.timewalk .future .leaves false).dropLast,
        Timewalk.isSameDayO w.time cur = false := by
      intro w hw
      have hne' : (Waypoint.time w).map Timewalk.dayOf ≠
          (Waypoint.time wₙ).map Timewalk.dayOf :=
        (List.pairwise_append.mp hpne).2.2 w hw wₙ (by simp)
      rw [Timewalk.isSameDayO.eq_def]
      cases htw : Waypoint.time w with
      | none => rw [hc]
      | some t =>
        rw [hc]
        dsimp only
        simp only [beq_eq_false_iff_ne, ne_eq]
        intro hdt
        rw [htw, htn] at hne'
        simp only [Option.map_some', ne_eq, Option.some_inj] at hne'
        exact hne' (by rw [hdt, hdays])
    have hfi : (Timewalk.traverse st.timewalk .future .leaves false).findIdx?
        (fun w => Timewalk.isSameDayO w.time cur) =
        some (Timewalk.traverse st.timewalk .future .leaves false).dropLast.length := by
      have hfi0 := findIdx?_last_only
        (Timewalk.traverse st.timewalk .future .leaves false).dropLast wₙ
        (fun w => Timewalk.isSameDayO w.time cur) hbefore hsame
      rw [hdecomp] at hfi0
      exact hfi0
    simp only [TimewalkService.getNextDailyNote, TimewalkService.getSortedWaypoints, hfi]
    have hlen : (Timewalk.traverse st.timewalk .future .leaves false).length =
        (Timewalk.traverse st.timewalk .future .leaves false).dropLast.length + 1 := by
      conv_lhs => rw [← hdecomp]
      rw [List.length_append, List.length_singleton]
    rw [hlen]
    simp

/-- C6 (witness): the three boundary behaviors evaluated on the
three-note January graph. -/
theorem c6_adjacent_boundary_witness :
    TimewalkService.getPreviousDailyNote stJan (some 1735689600000) = none ∧
    (TimewalkService.getPreviousDailyNote stJan (some 0) = none ∧
      TimewalkService.getNextDailyNote stJan (some 0) = none) ∧
    TimewalkService.getNextDailyNote stJan (some 1736035200000) = none := by
  refine ⟨(c6_adjacent_boundary stJan (some 1735689600000)).1
      (Waypoint.leaf "2025/01. Jan/01 Wed.md" (some 1735689600000)) (by decide) (by decide),
    (c6_adjacent_boundary stJan (some 0)).2.1 (by decide),
    (c6_adjacent_boundary stJan (some 1736035200000)).2.2 (by decide)
      (Waypoint.leaf "2025/01. Jan/05 Sun.md" (some 1736035200000)) (by decide) (by decide)⟩

/-- C1 (counterexample): with leaf times not aligned to UTC midnight
(noon of day 0 and 06:00 of day 2), the timeline contains two notes and no
gap, so the expansion misses day 1 of the first-to-last range: the
round-trip coverage fails for such graphs. -/
theorem c1_roundtrip_counterexample :
    Timewalk.traverse stHalf.timewalk .future .leaves false =
      [Waypoint.leaf "x" (some 43200000), Waypoint.leaf "y" (some 194400000)] ∧
    buildGlobalTimeline stHalf none none =
      [GlobalNavItem.note (some 43200000) "x" false false,
       GlobalNavItem.note (some 194400000) "y" false false] ∧
    Timewalk.dayOf 43200000 = 0 ∧
    Timewalk.dayOf 194400000 = 2 ∧
    expandDays (buildGlobalTimeline stHalf none none) = [0, 2] ∧
    dayRange 0 2 = [0, 1, 2] ∧
    expandDays (buildGlobalTimeline stHalf none none) ≠ dayRange 0 2 := by
  decide

/-- C1 (amended): when the chronological leaf sequence is non-empty, its
times are valid UTC midnights and pairwise distinct, the timeline's day
expansion (1 day per note, gapCount days per gap, in output order) is
exactly the inclusive run of calendar days from the first note's date to
the last note's date, and both the first and the last timeline item are
notes (no gap before the first or after the last note). -/
theorem c1_gap_roundtrip :
    ∀ (g : Waypoint) (mp : List (String × Int)) (a c : Option Int),
      (∀ w ∈ Timewalk.traverse g .future .leaves false, isMidnight w = true) →
      ((Timewalk.traverse g .future .leaves false).map Waypoint.time).Nodup →
      Timewalk.traverse g .future .leaves false ≠ [] →
      ∃ w₀ t₀ wₙ tₙ,
        (Timewalk.traverse g .future .leaves false).head? = some w₀ ∧
        Waypoint.time w₀ = some t₀ ∧
        (Timewalk.traverse g .future .leaves false).getLast? = some wₙ ∧
        Waypoint.time wₙ = some tₙ ∧
        expandDays (buildGlobalTimeline ⟨g, mp⟩ a c) =
          dayRange (Timewalk.dayOf t₀) (Timewalk.dayOf tₙ) ∧
        (∃ ia ic, (buildGlobalTimeline ⟨g, mp⟩ a c).head? =
          some (GlobalNavItem.note w₀.time w₀.identifier ia ic)) ∧
        (∃ d f ia ic, (buildGlobalTimeline ⟨g, mp⟩ a c).getLast? =
          some (GlobalNavItem.note d f ia ic)) := by
  intro g mp a c hmid hnd hne
  have hv : ∀ w ∈ Timewalk.traverse g .future .leaves false, (Waypoint.time w).isSome := by
    intro w hw
    obtain ⟨k, hk⟩ := isMidnight_elim (hmid w hw)
    rw [hk]
    rfl
  have hple := pairwise_traverse g .future .leaves false hv
  have hslt := pairwise_timeSLT_of_dirLE_future hple hnd
  cases hwl : Timewalk.traverse g .future .leaves false with
  | nil => exact absurd hwl hne
  | cons w rest =>
    have hbg : buildGlobalTimeline ⟨g, mp⟩ a c = buildItems a c (w :: rest) := by
      rw [buildGlobalTimeline]
      simp only
      rw [hwl]
      rfl
    have hmid' : ∀ x ∈ w :: rest, isMidnight x = true := by
      intro x hx
      exact hmid x (by rw [hwl]; exact hx)
    have hslt' : (w :: rest).Pairwise timeSLT := by
      rw [hwl] at hslt
      exact hslt
    obtain ⟨k0, ht0⟩ := isMidnight_elim (hmid' w (by simp))
    have hlastne : (w :: rest) ≠ [] := List.cons_ne_nil _ _
    have hlast := List.getLast?_eq_getLast_of_ne_nil hlastne
    obtain ⟨kn, htn⟩ := isMidnight_elim
      (hmid' ((w :: rest).getLast hlastne) (List.getLast_mem hlastne))
    refine ⟨w, k0 * 86400000, (w :: rest).getLast hlastne, kn * 86400000,
      List.head?_cons, ht0, hlast, htn, ?_, ?_, ?_⟩
    · rw [hbg]
      exact buildItems_expand a c (w :: rest) hmid' hslt' w (k0 * 86400000)
        ((w :: rest).getLast hlastne) (kn * 86400000) List.head?_cons ht0 hlast htn
    · rw [hbg]
      cases rest with
      | nil => exact ⟨_, _, by rw [buildItems_single]; rfl⟩
      | cons w' rest' => exact ⟨_, _, by rw [buildItems_cons₂]; rfl⟩
    · rw [hbg]
      exact buildItems_last_note a c (w :: rest) w rest rfl

/-- C1 (witness): the round-trip property evaluated on a concrete graph
with two midnight-aligned leaves one day apart from each other's
neighbor. -/
theorem c1_gap_roundtrip_witness :
    ∃ w₀ t₀ wₙ tₙ,
      (Timewalk.traverse gPair .future .leaves false).head? = some w₀ ∧
      Waypoint.time w₀ = some t₀ ∧
      (Timewalk.traverse gPair .future .leaves false).getLast? = some wₙ ∧
      Waypoint.time wₙ = some tₙ ∧
      expandDays (buildGlobalTimeline ⟨gPair, []⟩ none none) =
        dayRange (Timewalk.dayOf t₀) (Timewalk.dayOf tₙ) ∧
      (∃ ia ic, (buildGlobalTimeline ⟨gPair, []⟩ none none).head? =
        some (GlobalNavItem.note w₀.time w₀.identifier ia ic)) ∧
      (∃ d f ia ic, (buildGlobalTimeline ⟨gPair, []⟩ none none).getLast? =
        some (GlobalNavItem.note d f ia ic)) :=
  c1_gap_roundtrip gPair [] none none (by decide) (by decide) (by decide)
